import Mathlib

/-!
Shallow embedding of the advising platform's availability/booking core
(`src/availability/utils.py`, `src/availability/views.py`,
`src/booking/views.py`, `src/booking/models.py`,
`src/notifications/signals.py`).

Conventions:
- times of day are minutes from midnight (`Nat`);
- dates, user ids and row ids are `Nat`;
- the relational store (`Availability` and `Booking` tables) is a pair of
  lists; Django ORM queries become `List.find?` / `List.filter` / `List.any`;
- `settings.AVAILABILITY_SETTINGS` (START_TIME, END_TIME, SLOT_DURATION,
  MEETING_DURATION) is passed explicitly as a `SlotConfig`.
-/

namespace Advising

/-- Configuration read from `settings.AVAILABILITY_SETTINGS`:
day window boundaries, the fine grid step (`SLOT_DURATION`) and the
meeting length (`MEETING_DURATION`), all in minutes. -/
structure SlotConfig where
  startMin : Nat
  endMin : Nat
  slotDuration : Nat
  meetingDuration : Nat
deriving Repr, DecidableEq

/-- A row of the `Availability` model (`src/availability/models.py`):
one teacher-opened meeting slot on a date. -/
structure Availability where
  id : Nat
  teacher : Nat
  date : Nat
  startTime : Nat
  endTime : Nat
  meetingType : String
  message : String
deriving Repr, DecidableEq

/-- A row of the `Booking` model (`src/booking/models.py`):
a one-to-one claim on an `Availability` row. -/
structure Booking where
  id : Nat
  availabilityId : Nat
  student : Nat
  message : String
deriving Repr, DecidableEq

/-- The persistent store: the two tables plus auto-increment counters. -/
structure DB where
  avails : List Availability
  bookings : List Booking
  nextAvailId : Nat
  nextBookingId : Nat
deriving Repr, DecidableEq

/-- The queryset `Availability.objects.filter(teacher=teacher, date=selected_date)`
used by `generate_time_slots`. -/
def availsFor (db : DB) (teacher date : Nat) : List Availability :=
  db.avails.filter (fun a => a.teacher == teacher && a.date == date)

/-- One element of the list returned by `generate_time_slots`
(`src/availability/utils.py`, lines 228-243); the fields not needed by the
claims (display string, meeting types, message) are omitted. -/
structure TimeSlot where
  startTime : Nat
  endTime : Nat
  isAvailable : Bool
  availabilityId : Option Nat
  isBlocked : Bool
deriving Repr, DecidableEq

/-- The body of the `while` loop of `generate_time_slots` for one candidate
start `s`: `avail_data = existing_availabilities.get(slot_start)` becomes a
`find?` on start time, and `is_blocked` is the scan
`availability.start_time < slot_start < availability.end_time`. -/
def slotAt (avails : List Availability) (meetingDuration s : Nat) : TimeSlot :=
  let availData := avails.find? (fun a => a.startTime == s)
  { startTime := s
    endTime := s + meetingDuration
    isAvailable := availData.isSome
    availabilityId := availData.map (fun a => a.id)
    isBlocked := avails.any (fun a => a.startTime < s && s < a.endTime) }

/-- The `while current_time < end_time_dt` loop of `generate_time_slots`,
with an explicit fuel argument; each iteration emits the slot unless
`start + meeting_duration > day_end` (then it breaks) and advances by
`slot_duration`. -/
def slotsFrom (cfg : SlotConfig) (avails : List Availability) :
    Nat → Nat → List TimeSlot
  | 0, _ => []
  | fuel + 1, current =>
    if current < cfg.endMin then
      if cfg.endMin < current + cfg.meetingDuration then
        []
      else
        slotAt avails cfg.meetingDuration current ::
          slotsFrom cfg avails fuel (current + cfg.slotDuration)
    else []

/-- `generate_time_slots(selected_date, teacher)` restricted to its pure
core: the entries for the teacher and date are passed in, the loop starts
at `day_start`. The fuel `endMin + 1 - startMin` dominates the iteration
count whenever `slotDuration ≥ 1` (the loop advances by at least one minute
per emitted slot). -/
def generateTimeSlots (cfg : SlotConfig) (avails : List Availability) :
    List TimeSlot :=
  slotsFrom cfg avails (cfg.endMin + 1 - cfg.startMin) cfg.startMin

/-- The meeting-type validation of `save_availability`:
`meeting_type not in ["online", "in_person", "both"]`. -/
def validMeetingType (m : String) : Bool :=
  m == "online" || m == "in_person" || m == "both"

/-- Outcome of the `action == "set"` branch of `save_availability`:
created/updated on success, the explicit invalid-meeting-type rejection,
or `validationError` — the `ValidationError` raised by `full_clean()`
inside `Availability.save()`, caught by the view's `except Exception`
and answered as a 500 with nothing stored. -/
inductive SaveResult
  | created (id : Nat)
  | updated (id : Nat)
  | invalidMeetingType
  | validationError
deriving Repr, DecidableEq

/-- Key predicate of `Availability.objects.update_or_create(teacher=...,
date=..., start_time=...)`. -/
def availKey (teacher date startTime : Nat) (a : Availability) : Bool :=
  a.teacher == teacher && a.date == date && a.startTime == startTime

/-- `Availability.save()` runs `full_clean()`
(`src/availability/models.py`, lines 63-79) on every create and update:
field validation bounds `message` at 200 characters
(`CharField(max_length=200)`), and `clean()` recombines the stored
`start_time` and `end_time` on the same `date` and requires their
difference in minutes to equal `MEETING_DURATION` exactly — so an
`end_time` that wrapped past midnight gives a negative difference and is
rejected. -/
def fullCleanOk (cfg : SlotConfig) (startTime endTime : Nat)
    (message : String) : Bool :=
  decide (message.length ≤ 200) &&
    decide ((endTime : Int) - (startTime : Int) = (cfg.meetingDuration : Int))

/-- The `action == "set"` branch of `save_availability`
(`src/availability/views.py`, lines 305-329): validate the meeting type,
compute `end_time = (start_dt + timedelta(minutes=MEETING_DURATION)).time()`
— a time of day, so it wraps modulo 24 h (`% 1440`) — then
`update_or_create` keyed by `(teacher, date, start_time)` with defaults
`end_time`, `meeting_type`, `message`. Both the update and the create path
of `update_or_create` go through `Availability.save()`, whose
`full_clean()` can raise; the view's `except Exception` then answers a 500
and the store is unchanged. There is no grid-alignment check in the
source. -/
def saveAvailabilitySet (db : DB) (cfg : SlotConfig)
    (teacher date startTime : Nat) (meetingType message : String) :
    SaveResult × DB :=
  if validMeetingType meetingType then
    let endTime := (startTime + cfg.meetingDuration) % 1440
    match db.avails.find? (availKey teacher date startTime) with
    | some a =>
      if fullCleanOk cfg startTime endTime message then
        (SaveResult.updated a.id,
         { db with
            avails := db.avails.map (fun x =>
              if x.id == a.id then
                { x with endTime := endTime, meetingType := meetingType,
                         message := message }
              else x) })
      else (SaveResult.validationError, db)
    | none =>
      if fullCleanOk cfg startTime endTime message then
        (SaveResult.created db.nextAvailId,
         { db with
            avails := db.avails ++
              [{ id := db.nextAvailId, teacher := teacher, date := date,
                 startTime := startTime, endTime := endTime,
                 meetingType := meetingType, message := message }],
            nextAvailId := db.nextAvailId + 1 })
      else (SaveResult.validationError, db)
  else (SaveResult.invalidMeetingType, db)

/-- The `action == "delete"` branch of `save_availability`
(`src/availability/views.py`, lines 297-303):
`Availability.objects.filter(teacher, date, start_time).delete()`.
Because `Booking.availability` is `on_delete=CASCADE`
(`src/booking/models.py`, lines 16-21), bookings attached to a deleted
entry are deleted with it. The view responds success unconditionally. -/
def saveAvailabilityDelete (db : DB) (teacher date startTime : Nat) : DB :=
  let removedIds :=
    (db.avails.filter (availKey teacher date startTime)).map (fun a => a.id)
  { db with
      avails := db.avails.filter (fun a => !(availKey teacher date startTime a))
      bookings := db.bookings.filter (fun b => !(removedIds.contains b.availabilityId)) }

/-- The date of the availability row a booking points at, as queried by
`Booking.objects.filter(student=..., availability__date=...)`. -/
def bookingDate (db : DB) (b : Booking) : Option Nat :=
  (db.avails.find? (fun a => a.id == b.availabilityId)).map (fun a => a.date)

/-- JSON responses of the booking POST handler `book_meeting`
(`src/booking/views.py`, lines 44-106). -/
inductive Resp
  | ok (bookingId : Nat)
  | errAlreadyBooked
  | errDuplicateDaily
  | errNotFound
  | errServer
deriving Repr, DecidableEq

/-- Observable events of one `book_meeting` POST, in execution order:
the `transaction.atomic()` boundary, the `Booking.objects.create` insert,
the `post_save`-signal emission of the booking-created notification
(`src/notifications/signals.py`, lines 11-15), a notification-delivery
failure, and the transaction outcome. -/
inductive Ev
  | beginTxn
  | insertBooking (id : Nat)
  | emitBookingCreated (id : Nat)
  | notifyFailure
  | commit
  | rollback
deriving Repr, DecidableEq

/-- Result of one `book_meeting` POST: the JSON response, the store after
the request, and the event trace. -/
structure RunOut where
  resp : Resp
  db : DB
  trace : List Ev
deriving Repr, DecidableEq

/-- The POST branch of `book_meeting` (`src/booking/views.py`, lines
44-106). Inside `transaction.atomic()` the availability row is fetched
under `select_for_update` (missing row exits the block with an exception,
rolling back and answering 404); `hasattr(availability, "booking")` is the
already-booked check; the daily-duplicate check filters the student's
bookings by the entry's date; then `Booking.objects.create` inserts the
row, which fires the `post_save` receiver `booking_created` synchronously
— still inside the transaction, before commit. When the notification
delivery raises (`notifyFails`), the exception propagates out of the
atomic block (rolling the insert back) into the `except Exception` clause,
which answers a 500 error. Early `return JsonResponse` leaves the atomic
block normally, committing. -/
def claimRun (db : DB) (student availabilityId : Nat) (message : String)
    (notifyFails : Bool) : RunOut :=
  match db.avails.find? (fun a => a.id == availabilityId) with
  | none => ⟨Resp.errNotFound, db, [Ev.beginTxn, Ev.rollback]⟩
  | some a =>
    if db.bookings.any (fun b => b.availabilityId == a.id) then
      ⟨Resp.errAlreadyBooked, db, [Ev.beginTxn, Ev.commit]⟩
    else if db.bookings.any
        (fun b => b.student == student && bookingDate db b == some a.date) then
      ⟨Resp.errDuplicateDaily, db, [Ev.beginTxn, Ev.commit]⟩
    else
      let bid := db.nextBookingId
      if notifyFails then
        ⟨Resp.errServer, db,
         [Ev.beginTxn, Ev.insertBooking bid, Ev.emitBookingCreated bid,
          Ev.notifyFailure, Ev.rollback]⟩
      else
        ⟨Resp.ok bid,
         { db with
            bookings := db.bookings ++
              [{ id := bid, availabilityId := a.id, student := student,
                 message := message }],
            nextBookingId := bid + 1 },
         [Ev.beginTxn, Ev.insertBooking bid, Ev.emitBookingCreated bid,
          Ev.commit]⟩

/-- `claim(student, availability_id, message)`: the booking transaction of
`book_meeting` with notification delivery succeeding, projected to the
response and resulting store. -/
def claim (db : DB) (student availabilityId : Nat) (message : String) :
    Resp × DB :=
  let r := claimRun db student availabilityId message false
  (r.resp, r.db)

/-- N claims against the same entry, applied in the serialization order
produced by the `select_for_update` row lock: the lock makes concurrent
`book_meeting` transactions on one entry execute one after the other, so
an arbitrary request list covers every interleaving. -/
def claimAll (availabilityId : Nat) : DB → List (Nat × String) → List Resp × DB
  | db, [] => ([], db)
  | db, (s, m) :: rest =>
    let p := claim db s availabilityId m
    let q := claimAll availabilityId p.2 rest
    (p.1 :: q.1, q.2)

/-- Responses of `cancel_booking` (`src/booking/views.py`, lines 186-225). -/
inductive CancelResp
  | ok
  | errNotFound
deriving Repr, DecidableEq

/-- Events emitted while cancelling: the `pre_delete` receiver
`booking_deleted` (`src/notifications/signals.py`, lines 18-21) sends the
cancellation notification with `getattr(instance, "cancellation_message", "")`
as the reason. -/
inductive CancelEv
  | bookingCancelled (reason : String)
deriving Repr, DecidableEq

/-- Result of one `cancel_booking` POST. -/
structure CancelOut where
  resp : CancelResp
  db : DB
  events : List CancelEv
deriving Repr, DecidableEq

/-- `cancel_booking(request, booking_id)` (`src/booking/views.py`, lines
186-225): fetches the booking by id restricted to the requesting student
(missing gives 404), then deletes it unconditionally — the view never
reads a reason from the request and performs no reason validation, so the
`reason` argument of the logical cancel request is ignored. The
`pre_delete` receiver fires exactly once for the deleted row, carrying
`getattr(instance, "cancellation_message", "")`, which the view never
sets, hence the emitted reason is the empty string. -/
def cancelBooking (db : DB) (student bookingId : Nat) (reason : String) :
    CancelOut :=
  match db.bookings.find? (fun b => b.id == bookingId && b.student == student) with
  | none => ⟨CancelResp.errNotFound, db, []⟩
  | some _ =>
    ⟨CancelResp.ok,
     { db with bookings := db.bookings.filter (fun x => !(x.id == bookingId)) },
     [CancelEv.bookingCancelled ""]⟩

/-! ### Helper lemmas about the slot grid -/

/-- Every slot produced by the loop is the loop body evaluated at its own
start time. -/
theorem mem_slotsFrom_eq_slotAt (cfg : SlotConfig) (avails : List Availability) :
    ∀ fuel cur sl, sl ∈ slotsFrom cfg avails fuel cur →
      sl = slotAt avails cfg.meetingDuration sl.startTime := by
  intro fuel
  induction fuel with
  | zero => intro cur sl h; simp [slotsFrom] at h
  | succ n ih =>
    intro cur sl h
    simp only [slotsFrom] at h
    split at h
    · split at h
      · simp at h
      · rcases List.mem_cons.mp h with h1 | h2
        · subst h1; rfl
        · exact ih _ sl h2
    · simp at h

/-- The first slot the loop emits starts at the loop's current time. -/
theorem slotsFrom_head_start (cfg : SlotConfig) (avails : List Availability)
    (fuel cur : Nat) (x : TimeSlot) (l : List TimeSlot)
    (h : slotsFrom cfg avails fuel cur = x :: l) : x.startTime = cur := by
  cases fuel with
  | zero => simp [slotsFrom] at h
  | succ n =>
    simp only [slotsFrom] at h
    split at h
    · split at h
      · simp at h
      · cases h; rfl
    · simp at h

/-- Consecutive slots are exactly one grid step apart (and strictly
increasing when the step is positive). -/
theorem slotsFrom_chain (cfg : SlotConfig) (avails : List Availability)
    (hstep : 1 ≤ cfg.slotDuration) :
    ∀ fuel cur, List.Chain'
      (fun x y : TimeSlot =>
        y.startTime = x.startTime + cfg.slotDuration ∧ x.startTime < y.startTime)
      (slotsFrom cfg avails fuel cur) := by
  intro fuel
  induction fuel with
  | zero => intro cur; exact List.chain'_nil
  | succ n ih =>
    intro cur
    simp only [slotsFrom]
    split
    · split
      · exact List.chain'_nil
      · rw [List.chain'_cons']
        refine ⟨?_, ih _⟩
        intro b hb
        cases hrest : slotsFrom cfg avails n (cur + cfg.slotDuration) with
        | nil => rw [hrest] at hb; simp at hb
        | cons y l =>
          rw [hrest] at hb
          simp only [List.head?_cons, Option.mem_def, Option.some.injEq] at hb
          subst hb
          have hy := slotsFrom_head_start cfg avails n (cur + cfg.slotDuration) y l hrest
          constructor
          · rw [hy]; rfl
          · show cur < y.startTime
            omega
    · exact List.chain'_nil

/-- No emitted slot's meeting extends past the end of the day window. -/
theorem slotsFrom_end_le (cfg : SlotConfig) (avails : List Availability) :
    ∀ fuel cur sl, sl ∈ slotsFrom cfg avails fuel cur → sl.endTime ≤ cfg.endMin := by
  intro fuel
  induction fuel with
  | zero => intro cur sl h; simp [slotsFrom] at h
  | succ n ih =>
    intro cur sl h
    simp only [slotsFrom] at h
    split at h
    · split at h
      · simp at h
      · rename_i hnot
        rcases List.mem_cons.mp h with h1 | h2
        · subst h1
          show cur + cfg.meetingDuration ≤ cfg.endMin
          omega
        · exact ih _ sl h2
    · simp at h

/-- C6, third part: a window shorter than the meeting produces no slots. -/
theorem generateTimeSlots_eq_nil (cfg : SlotConfig) (avails : List Availability)
    (h : cfg.endMin - cfg.startMin < cfg.meetingDuration) :
    generateTimeSlots cfg avails = [] := by
  unfold generateTimeSlots
  cases hf : cfg.endMin + 1 - cfg.startMin with
  | zero => rfl
  | succ n =>
    simp only [slotsFrom]
    split
    · rename_i hlt
      have hbreak : cfg.endMin < cfg.startMin + cfg.meetingDuration := by omega
      rw [if_pos hbreak]
    · rfl

/-- C6: for every configuration with a positive grid step, the generated
slot grid has starts strictly increasing by exactly `fine_step`, no slot
whose meeting end exceeds `day_end`, and is empty whenever
`day_end - day_start < meeting_duration`. -/
theorem grid_step_bounds_and_shortday (cfg : SlotConfig) (avails : List Availability)
    (hstep : 1 ≤ cfg.slotDuration) :
    List.Chain'
      (fun x y : TimeSlot =>
        y.startTime = x.startTime + cfg.slotDuration ∧ x.startTime < y.startTime)
      (generateTimeSlots cfg avails)
    ∧ (∀ sl ∈ generateTimeSlots cfg avails, sl.endTime ≤ cfg.endMin)
    ∧ (cfg.endMin - cfg.startMin < cfg.meetingDuration →
        generateTimeSlots cfg avails = []) := by
  refine ⟨slotsFrom_chain cfg avails hstep _ _, ?_, ?_⟩
  · intro sl h
    exact slotsFrom_end_le cfg avails _ _ sl h
  · intro h
    exact generateTimeSlots_eq_nil cfg avails h

/-- C6 witness: the default-shaped configuration (09:00 to 10:30 day
window, 15-minute step, 30-minute meetings) with no entries. -/
theorem grid_step_bounds_and_shortday_witness :
    1 ≤ (⟨540, 630, 15, 30⟩ : SlotConfig).slotDuration
    ∧ (List.Chain'
        (fun x y : TimeSlot => y.startTime = x.startTime + 15 ∧ x.startTime < y.startTime)
        (generateTimeSlots ⟨540, 630, 15, 30⟩ [])
      ∧ (∀ sl ∈ generateTimeSlots ⟨540, 630, 15, 30⟩ [], sl.endTime ≤ 630)
      ∧ (630 - 540 < 30 → generateTimeSlots ⟨540, 630, 15, 30⟩ [] = [])) :=
  ⟨by decide, grid_step_bounds_and_shortday ⟨540, 630, 15, 30⟩ [] (by decide)⟩

/-- C5: at a grid position `s` where no entry starts, the projector marks
the slot blocked exactly when some entry's window strictly contains `s`,
and never marks it available. -/
theorem blocked_iff_strictly_inside (cfg : SlotConfig)
    (avails : List Availability) (s : Nat)
    (hnone : ∀ a ∈ avails, a.startTime ≠ s) :
    ∀ sl ∈ generateTimeSlots cfg avails, sl.startTime = s →
      (sl.isBlocked = true ↔ ∃ a ∈ avails, a.startTime < s ∧ s < a.endTime)
      ∧ sl.isAvailable = false := by
  intro sl hmem hs
  have he := mem_slotsFrom_eq_slotAt cfg avails _ _ sl hmem
  rw [hs] at he
  subst he
  constructor
  · show (avails.any fun a => a.startTime < s && s < a.endTime) = true ↔ _
    rw [List.any_eq_true]
    constructor
    · rintro ⟨a, hma, hpa⟩
      rw [Bool.and_eq_true, decide_eq_true_eq, decide_eq_true_eq] at hpa
      exact ⟨a, hma, hpa⟩
    · rintro ⟨a, hma, h1, h2⟩
      exact ⟨a, hma, by rw [Bool.and_eq_true, decide_eq_true_eq, decide_eq_true_eq]; exact ⟨h1, h2⟩⟩
  · show (avails.find? fun a => a.startTime == s).isSome = false
    rw [Bool.eq_false_iff]
    intro hsome
    rcases List.find?_isSome.mp hsome with ⟨a, hma, hpa⟩
    exact hnone a hma (by simpa using hpa)

/-- C5 witness: one open entry 09:00-09:30 on the 15-minute grid of a
09:00-10:30 day window: 09:15 (555) is blocked and not available, 09:00
(540) is available and unblocked, 09:30 (570) is neither. -/
theorem blocked_iff_strictly_inside_witness :
    (∀ a ∈ [(⟨1, 1, 0, 540, 570, "online", ""⟩ : Availability)], a.startTime ≠ 555)
    ∧ (∀ sl ∈ generateTimeSlots ⟨540, 630, 15, 30⟩
          [(⟨1, 1, 0, 540, 570, "online", ""⟩ : Availability)], sl.startTime = 555 →
        (sl.isBlocked = true ↔
          ∃ a ∈ [(⟨1, 1, 0, 540, 570, "online", ""⟩ : Availability)],
            a.startTime < 555 ∧ 555 < a.endTime)
        ∧ sl.isAvailable = false)
    ∧ (∃ sl ∈ generateTimeSlots ⟨540, 630, 15, 30⟩
          [(⟨1, 1, 0, 540, 570, "online", ""⟩ : Availability)],
        sl.startTime = 555 ∧ sl.isBlocked = true ∧ sl.isAvailable = false)
    ∧ (∃ sl ∈ generateTimeSlots ⟨540, 630, 15, 30⟩
          [(⟨1, 1, 0, 540, 570, "online", ""⟩ : Availability)],
        sl.startTime = 540 ∧ sl.isAvailable = true ∧ sl.isBlocked = false)
    ∧ (∃ sl ∈ generateTimeSlots ⟨540, 630, 15, 30⟩
          [(⟨1, 1, 0, 540, 570, "online", ""⟩ : Availability)],
        sl.startTime = 570 ∧ sl.isAvailable = false ∧ sl.isBlocked = false) :=
  ⟨by decide,
   blocked_iff_strictly_inside ⟨540, 630, 15, 30⟩
     [(⟨1, 1, 0, 540, 570, "online", ""⟩ : Availability)] 555 (by decide),
   by decide, by decide, by decide⟩

/-! ### The booking transaction -/

/-- C2: one `claim` call on an existing entry takes the already-booked
check first, then the one-booking-per-day check (joining the student's
bookings to their entry's date, regardless of teacher), and only then
inserts; on either failure the store is unchanged. -/
theorem claim_checks_then_insert (db : DB) (student availabilityId : Nat)
    (msg : String) (a : Availability)
    (ha : db.avails.find? (fun x => x.id == availabilityId) = some a) :
    (db.bookings.any (fun b => b.availabilityId == a.id) = true →
      claim db student availabilityId msg = (Resp.errAlreadyBooked, db))
    ∧ (db.bookings.any (fun b => b.availabilityId == a.id) = false →
       db.bookings.any
         (fun b => b.student == student && bookingDate db b == some a.date) = true →
      claim db student availabilityId msg = (Resp.errDuplicateDaily, db))
    ∧ (db.bookings.any (fun b => b.availabilityId == a.id) = false →
       db.bookings.any
         (fun b => b.student == student && bookingDate db b == some a.date) = false →
      claim db student availabilityId msg =
        (Resp.ok db.nextBookingId,
         { db with
            bookings := db.bookings ++
              [{ id := db.nextBookingId, availabilityId := a.id,
                 student := student, message := msg }],
            nextBookingId := db.nextBookingId + 1 })) := by
  refine ⟨?_, ?_, ?_⟩
  · intro h1
    simp [claim, claimRun, ha, h1]
  · intro h1 h2
    simp [claim, claimRun, ha, h1, h2]
  · intro h1 h2
    simp [claim, claimRun, ha, h1, h2]

/-- C2 witness: a single open entry, an empty ledger, and a fresh student;
the insert branch applies and both failure branches hold vacuously. -/
theorem claim_checks_then_insert_witness :
    (DB.avails ⟨[⟨1, 1, 0, 540, 570, "online", ""⟩], [], 2, 1⟩).find?
        (fun x => x.id == 1) = some ⟨1, 1, 0, 540, 570, "online", ""⟩
    ∧ (((DB.bookings ⟨[⟨1, 1, 0, 540, 570, "online", ""⟩], [], 2, 1⟩).any
          (fun b => b.availabilityId == 1) = true →
        claim ⟨[⟨1, 1, 0, 540, 570, "online", ""⟩], [], 2, 1⟩ 5 1 "hi" =
          (Resp.errAlreadyBooked, ⟨[⟨1, 1, 0, 540, 570, "online", ""⟩], [], 2, 1⟩))
      ∧ ((DB.bookings ⟨[⟨1, 1, 0, 540, 570, "online", ""⟩], [], 2, 1⟩).any
          (fun b => b.availabilityId == 1) = false →
         (DB.bookings ⟨[⟨1, 1, 0, 540, 570, "online", ""⟩], [], 2, 1⟩).any
          (fun b => b.student == 5 &&
            bookingDate ⟨[⟨1, 1, 0, 540, 570, "online", ""⟩], [], 2, 1⟩ b == some 0) = true →
        claim ⟨[⟨1, 1, 0, 540, 570, "online", ""⟩], [], 2, 1⟩ 5 1 "hi" =
          (Resp.errDuplicateDaily, ⟨[⟨1, 1, 0, 540, 570, "online", ""⟩], [], 2, 1⟩))
      ∧ ((DB.bookings ⟨[⟨1, 1, 0, 540, 570, "online", ""⟩], [], 2, 1⟩).any
          (fun b => b.availabilityId == 1) = false →
         (DB.bookings ⟨[⟨1, 1, 0, 540, 570, "online", ""⟩], [], 2, 1⟩).any
          (fun b => b.student == 5 &&
            bookingDate ⟨[⟨1, 1, 0, 540, 570, "online", ""⟩], [], 2, 1⟩ b == some 0) = false →
        claim ⟨[⟨1, 1, 0, 540, 570, "online", ""⟩], [], 2, 1⟩ 5 1 "hi" =
          (Resp.ok 1,
           { avails := [⟨1, 1, 0, 540, 570, "online", ""⟩],
             bookings := [{ id := 1, availabilityId := 1, student := 5, message := "hi" }],
             nextAvailId := 2, nextBookingId := 2 }))) :=
  ⟨by decide,
   claim_checks_then_insert ⟨[⟨1, 1, 0, 540, 570, "online", ""⟩], [], 2, 1⟩ 5 1 "hi"
     ⟨1, 1, 0, 540, 570, "online", ""⟩ (by decide)⟩

/-- Once a booking for the entry exists, every further claim on that entry
answers the already-booked error and leaves the store unchanged. -/
theorem claimAll_already_booked (availabilityId : Nat) (a : Availability) :
    ∀ (reqs : List (Nat × String)) (db : DB),
      db.avails.find? (fun x => x.id == availabilityId) = some a →
      db.bookings.any (fun b => b.availabilityId == a.id) = true →
      claimAll availabilityId db reqs =
        (reqs.map (fun _ => Resp.errAlreadyBooked), db) := by
  intro reqs
  induction reqs with
  | nil => intro db ha hb; rfl
  | cons p rest ih =>
    intro db ha hb
    obtain ⟨s, m⟩ := p
    have hc : claim db s availabilityId m = (Resp.errAlreadyBooked, db) := by
      simp [claim, claimRun, ha, hb]
    simp [claimAll, hc, ih db ha hb]

/-- C1: any serialization of N claims against one unbooked entry (the
row lock of `book_meeting` serializes them) has exactly the first
succeeding, every later one failing already-booked, and leaves exactly one
booking row for the entry. -/
theorem concurrent_claims_exactly_one (db : DB) (availabilityId : Nat)
    (a : Availability) (s0 : Nat) (m0 : String) (rest : List (Nat × String))
    (ha : db.avails.find? (fun x => x.id == availabilityId) = some a)
    (hnb : db.bookings.any (fun b => b.availabilityId == a.id) = false)
    (hdaily : ∀ p ∈ (s0, m0) :: rest,
      db.bookings.any
        (fun b => b.student == p.1 && bookingDate db b == some a.date) = false) :
    (claimAll availabilityId db ((s0, m0) :: rest)).1 =
      Resp.ok db.nextBookingId :: rest.map (fun _ => Resp.errAlreadyBooked)
    ∧ (claimAll availabilityId db ((s0, m0) :: rest)).2.bookings.countP
        (fun b => b.availabilityId == a.id) = 1 := by
  have hd0 := hdaily (s0, m0) (List.mem_cons_self _ _)
  have hfirst : claim db s0 availabilityId m0 =
      (Resp.ok db.nextBookingId,
       { db with
          bookings := db.bookings ++
            [{ id := db.nextBookingId, availabilityId := a.id,
               student := s0, message := m0 }],
          nextBookingId := db.nextBookingId + 1 }) := by
    simp [claim, claimRun, ha, hnb, hd0]
  set db1 : DB :=
    { db with
        bookings := db.bookings ++
          [{ id := db.nextBookingId, availabilityId := a.id,
             student := s0, message := m0 }],
        nextBookingId := db.nextBookingId + 1 } with hdb1
  have ha1 : db1.avails.find? (fun x => x.id == availabilityId) = some a := ha
  have hb1 : db1.bookings.any (fun b => b.availabilityId == a.id) = true := by
    show (db.bookings ++ [_]).any _ = true
    rw [List.any_append]
    simp
  have hrest := claimAll_already_booked availabilityId a rest db1 ha1 hb1
  constructor
  · simp [claimAll, hfirst, hrest]
  · have hzero : db.bookings.countP (fun b => b.availabilityId == a.id) = 0 := by
      rw [List.countP_eq_zero]
      intro b hbmem
      exact (List.any_eq_false.mp hnb) b hbmem
    simp only [claimAll, hfirst, hrest]
    show db1.bookings.countP (fun b => b.availabilityId == a.id) = 1
    rw [hdb1]
    show (db.bookings ++ [_]).countP _ = 1
    rw [List.countP_append, hzero]
    simp

/-- C1 witness: three students race for the same entry; the serialization
starting with student 5 yields one success and two already-booked
failures, and one booking row. -/
theorem concurrent_claims_exactly_one_witness :
    (DB.avails ⟨[⟨1, 1, 0, 540, 570, "online", ""⟩], [], 2, 1⟩).find?
        (fun x => x.id == 1) = some ⟨1, 1, 0, 540, 570, "online", ""⟩
    ∧ (DB.bookings ⟨[⟨1, 1, 0, 540, 570, "online", ""⟩], [], 2, 1⟩).any
        (fun b => b.availabilityId == 1) = false
    ∧ ((claimAll 1 ⟨[⟨1, 1, 0, 540, 570, "online", ""⟩], [], 2, 1⟩
          [(5, "a"), (6, "b"), (7, "c")]).1 =
        [Resp.ok 1, Resp.errAlreadyBooked, Resp.errAlreadyBooked]
      ∧ (claimAll 1 ⟨[⟨1, 1, 0, 540, 570, "online", ""⟩], [], 2, 1⟩
          [(5, "a"), (6, "b"), (7, "c")]).2.bookings.countP
          (fun b => b.availabilityId == 1) = 1) := by
  have h := concurrent_claims_exactly_one
    ⟨[⟨1, 1, 0, 540, 570, "online", ""⟩], [], 2, 1⟩ 1
    ⟨1, 1, 0, 540, 570, "online", ""⟩ 5 "a" [(6, "b"), (7, "c")]
    (by decide) (by decide) (by decide)
  exact ⟨by decide, by decide, h⟩

/-! ### Cancellation and notification timing -/

/-- C3: evaluating `cancel_booking` at a whitespace-only reason. The view
performs no reason validation (it never reads a reason from the request),
so the booking is deleted anyway and the single cancellation event carries
the empty string, not the given reason — contradicting the repository's
own test `test_cancel_booking_requires_message`, which expects a 400
response and the booking kept. -/
theorem cancel_deletes_despite_blank_reason :
    (cancelBooking ⟨[⟨1, 1, 0, 540, 570, "online", ""⟩], [⟨1, 1, 7, "m"⟩], 2, 2⟩
        7 1 "   ").resp = CancelResp.ok
    ∧ (cancelBooking ⟨[⟨1, 1, 0, 540, 570, "online", ""⟩], [⟨1, 1, 7, "m"⟩], 2, 2⟩
        7 1 "   ").db.bookings = []
    ∧ (cancelBooking ⟨[⟨1, 1, 0, 540, 570, "online", ""⟩], [⟨1, 1, 7, "m"⟩], 2, 2⟩
        7 1 "some reason").events = [CancelEv.bookingCancelled ""] := by
  refine ⟨rfl, rfl, rfl⟩

/-- C4 counterexample: with one open entry and a fresh student, the
successful claim's trace contains the booking-created emission strictly
before the commit event (it sits in the prefix of the trace preceding
`commit`), and when notification delivery fails the caller receives a
server error and the store holds no booking — the insert was rolled
back. -/
theorem emission_before_commit_counterexample :
    ((claimRun ⟨[⟨1, 1, 0, 540, 570, "online", ""⟩], [], 2, 1⟩ 5 1 "hi" false).resp
        = Resp.ok 1
      ∧ Ev.emitBookingCreated 1 ∈
          ((claimRun ⟨[⟨1, 1, 0, 540, 570, "online", ""⟩], [], 2, 1⟩ 5 1 "hi"
              false).trace.takeWhile (fun e => !(e == Ev.commit))))
    ∧ ((claimRun ⟨[⟨1, 1, 0, 540, 570, "online", ""⟩], [], 2, 1⟩ 5 1 "hi" true).resp
        = Resp.errServer
      ∧ (claimRun ⟨[⟨1, 1, 0, 540, 570, "online", ""⟩], [], 2, 1⟩ 5 1 "hi"
          true).db.bookings = []) := by
  decide

/-- C4 amended: the booking-created notification is sent from a
`post_save` receiver, synchronously inside the transaction — the
successful trace is begin, insert, emit, commit, so emission precedes the
durable commit; and a notification-delivery failure aborts the
transaction: the caller gets a server error and the booking is rolled
back, leaving the store unchanged. -/
theorem emission_inside_transaction (db : DB) (student availabilityId : Nat)
    (msg : String) (a : Availability)
    (ha : db.avails.find? (fun x => x.id == availabilityId) = some a)
    (hnb : db.bookings.any (fun b => b.availabilityId == a.id) = false)
    (hnd : db.bookings.any
      (fun b => b.student == student && bookingDate db b == some a.date) = false) :
    (claimRun db student availabilityId msg false).trace =
      [Ev.beginTxn, Ev.insertBooking db.nextBookingId,
       Ev.emitBookingCreated db.nextBookingId, Ev.commit]
    ∧ (claimRun db student availabilityId msg true).resp = Resp.errServer
    ∧ (claimRun db student availabilityId msg true).db = db := by
  refine ⟨?_, ?_, ?_⟩ <;> simp [claimRun, ha, hnb, hnd]

/-- C4 witness: the amended behavior at the concrete one-entry store. -/
theorem emission_inside_transaction_witness :
    (DB.avails ⟨[⟨1, 1, 0, 540, 570, "online", ""⟩], [], 2, 1⟩).find?
        (fun x => x.id == 1) = some ⟨1, 1, 0, 540, 570, "online", ""⟩
    ∧ (DB.bookings ⟨[⟨1, 1, 0, 540, 570, "online", ""⟩], [], 2, 1⟩).any
        (fun b => b.availabilityId == 1) = false
    ∧ ((claimRun ⟨[⟨1, 1, 0, 540, 570, "online", ""⟩], [], 2, 1⟩ 5 1 "hi" false).trace =
        [Ev.beginTxn, Ev.insertBooking 1, Ev.emitBookingCreated 1, Ev.commit]
      ∧ (claimRun ⟨[⟨1, 1, 0, 540, 570, "online", ""⟩], [], 2, 1⟩ 5 1 "hi" true).resp =
          Resp.errServer
      ∧ (claimRun ⟨[⟨1, 1, 0, 540, 570, "online", ""⟩], [], 2, 1⟩ 5 1 "hi" true).db =
          ⟨[⟨1, 1, 0, 540, 570, "online", ""⟩], [], 2, 1⟩) :=
  ⟨by decide, by decide,
   emission_inside_transaction ⟨[⟨1, 1, 0, 540, 570, "online", ""⟩], [], 2, 1⟩ 5 1 "hi"
     ⟨1, 1, 0, 540, 570, "online", ""⟩ (by decide) (by decide) (by decide)⟩

/-! ### Deleting and upserting availability entries -/

/-- C7 counterexample: unset on an entry holding a booking does not fail
— the view deletes unconditionally and the one-to-one `CASCADE` removes
the booking with the entry, so afterwards both tables are empty instead
of both rows surviving behind an `EntryHasActiveBooking` error. -/
theorem unset_cascades_attached_booking :
    (saveAvailabilityDelete
        ⟨[⟨1, 1, 0, 540, 570, "online", ""⟩], [⟨1, 1, 7, "m"⟩], 2, 2⟩ 1 0 540).avails = []
    ∧ (saveAvailabilityDelete
        ⟨[⟨1, 1, 0, 540, 570, "online", ""⟩], [⟨1, 1, 7, "m"⟩], 2, 2⟩ 1 0 540).bookings = [] := by
  decide

/-- C7 amended: unset always succeeds; it removes every entry keyed
`(teacher, date, start_time)` and cascade-deletes every booking attached
to a removed entry — it never leaves the pair in place. -/
theorem unset_removes_entry_and_booking (db : DB) (t d s : Nat) :
    (∀ a ∈ (saveAvailabilityDelete db t d s).avails, availKey t d s a = false)
    ∧ (∀ b ∈ (saveAvailabilityDelete db t d s).bookings,
        ∀ a ∈ db.avails, availKey t d s a = true → b.availabilityId ≠ a.id) := by
  constructor
  · intro a ha
    have := (List.mem_filter.mp ha).2
    rwa [Bool.not_eq_true'] at this
  · intro b hb a ha hkey heq
    have hcon := (List.mem_filter.mp hb).2
    rw [Bool.not_eq_true'] at hcon
    have hmem : a.id ∈ ((db.avails.filter (availKey t d s)).map (fun x => x.id)) :=
      List.mem_map.mpr ⟨a, List.mem_filter.mpr ⟨ha, hkey⟩, rfl⟩
    rw [List.contains_eq_any_beq] at hcon
    have := List.any_eq_false.mp hcon _ hmem
    rw [heq] at this
    exact this (beq_self_eq_true a.id)

/-- C7 amended witness: the one-entry-one-booking store. -/
theorem unset_removes_entry_and_booking_witness :
    (∀ a ∈ (saveAvailabilityDelete
        ⟨[⟨1, 1, 0, 540, 570, "online", ""⟩], [⟨1, 1, 7, "m"⟩], 2, 2⟩ 1 0 540).avails,
      availKey 1 0 540 a = false)
    ∧ (∀ b ∈ (saveAvailabilityDelete
        ⟨[⟨1, 1, 0, 540, 570, "online", ""⟩], [⟨1, 1, 7, "m"⟩], 2, 2⟩ 1 0 540).bookings,
        ∀ a ∈ [(⟨1, 1, 0, 540, 570, "online", ""⟩ : Availability)],
          availKey 1 0 540 a = true → b.availabilityId ≠ a.id) :=
  unset_removes_entry_and_booking
    ⟨[⟨1, 1, 0, 540, 570, "online", ""⟩], [⟨1, 1, 7, "m"⟩], 2, 2⟩ 1 0 540

/-- The update inside `update_or_create` keeps the key fields, so the key
predicate is unchanged by it. -/
theorem availKey_update_eq (t d s et : Nat) (mt msg : String) (x : Availability) :
    availKey t d s { x with endTime := et, meetingType := mt, message := msg }
      = availKey t d s x := rfl

/-- The model validation run by `full_clean` passes exactly when the note
fits in 200 characters and the meeting window does not wrap past
midnight. -/
theorem fullCleanOk_true (cfg : SlotConfig) (s : Nat) (msg : String)
    (hlen : msg.length ≤ 200) (hfit : s + cfg.meetingDuration < 1440) :
    fullCleanOk cfg s ((s + cfg.meetingDuration) % 1440) msg = true := by
  unfold fullCleanOk
  rw [Bool.and_eq_true, decide_eq_true_eq, decide_eq_true_eq]
  refine ⟨hlen, ?_⟩
  rw [Nat.mod_eq_of_lt hfit]
  omega

/-- After a `set` with a valid meeting type that passes the model
validation, the call reports created or updated and an entry keyed
`(teacher, date, start_time)` exists. -/
theorem set_key_entry_exists (db : DB) (cfg : SlotConfig) (t d s : Nat)
    (m note : String) (hm : validMeetingType m = true)
    (hlen : note.length ≤ 200) (hfit : s + cfg.meetingDuration < 1440) :
    (∃ i, (saveAvailabilitySet db cfg t d s m note).1 = SaveResult.created i
        ∨ (saveAvailabilitySet db cfg t d s m note).1 = SaveResult.updated i)
    ∧ ∃ a ∈ (saveAvailabilitySet db cfg t d s m note).2.avails,
        availKey t d s a = true := by
  have hclean := fullCleanOk_true cfg s note hlen hfit
  cases hfind : db.avails.find? (availKey t d s) with
  | none =>
    simp only [saveAvailabilitySet, hm, if_true, hfind, hclean]
    refine ⟨⟨db.nextAvailId, Or.inl rfl⟩, ?_⟩
    refine ⟨_, List.mem_append.mpr (Or.inr (List.mem_singleton.mpr rfl)), ?_⟩
    simp [availKey]
  | some a0 =>
    have ha0mem := List.mem_of_find?_eq_some hfind
    have ha0key := List.find?_some hfind
    simp only [saveAvailabilitySet, hm, if_true, hfind, hclean]
    refine ⟨⟨a0.id, Or.inr rfl⟩, ?_⟩
    refine ⟨_, List.mem_map.mpr ⟨a0, ha0mem, rfl⟩, ?_⟩
    rw [if_pos (beq_self_eq_true a0.id)]
    rw [availKey_update_eq]
    exact ha0key

/-- C8 amended: `save_availability` performs no grid-alignment check: a
`set` with a valid meeting type whose arguments pass the model validation
of `full_clean` (note within 200 characters, meeting window not crossing
midnight) succeeds regardless of grid alignment, and afterwards an entry
with the requested `start_time` is stored; no `InvalidSlotBoundary`
failure exists. -/
theorem set_has_no_grid_validation (db : DB) (cfg : SlotConfig) (t d s : Nat)
    (m note : String) (hm : validMeetingType m = true)
    (hlen : note.length ≤ 200) (hfit : s + cfg.meetingDuration < 1440) :
    (∃ i, (saveAvailabilitySet db cfg t d s m note).1 = SaveResult.created i
        ∨ (saveAvailabilitySet db cfg t d s m note).1 = SaveResult.updated i)
    ∧ ∃ a ∈ (saveAvailabilitySet db cfg t d s m note).2.avails,
        availKey t d s a = true :=
  set_key_entry_exists db cfg t d s m note hm hlen hfit

/-- C8 counterexample: with a 15-minute grid starting 08:00, start time
09:07 (547 minutes, off the grid: no generated slot starts there) is
accepted and an entry is created, instead of failing with
`InvalidSlotBoundary` and creating nothing. -/
theorem set_accepts_offgrid_start :
    (saveAvailabilitySet ⟨[], [], 1, 1⟩ ⟨480, 1020, 15, 30⟩ 1 0 547 "online" "").1
        = SaveResult.created 1
    ∧ ((saveAvailabilitySet ⟨[], [], 1, 1⟩ ⟨480, 1020, 15, 30⟩ 1 0 547 "online" "").2.avails.any
        (availKey 1 0 547)) = true
    ∧ (generateTimeSlots ⟨480, 1020, 15, 30⟩ []).all
        (fun sl => !(sl.startTime == 547)) = true := by
  decide

/-- C8 witness: the amended behavior at the off-grid start time 547. -/
theorem set_has_no_grid_validation_witness :
    validMeetingType "online" = true
    ∧ ("" : String).length ≤ 200
    ∧ 547 + (SlotConfig.meetingDuration ⟨480, 1020, 15, 30⟩) < 1440
    ∧ ((∃ i, (saveAvailabilitySet ⟨[], [], 1, 1⟩ ⟨480, 1020, 15, 30⟩ 1 0 547
            "online" "").1 = SaveResult.created i
        ∨ (saveAvailabilitySet ⟨[], [], 1, 1⟩ ⟨480, 1020, 15, 30⟩ 1 0 547
            "online" "").1 = SaveResult.updated i)
      ∧ ∃ a ∈ (saveAvailabilitySet ⟨[], [], 1, 1⟩ ⟨480, 1020, 15, 30⟩ 1 0 547
            "online" "").2.avails, availKey 1 0 547 a = true) :=
  ⟨by decide, by decide, by decide,
   set_has_no_grid_validation ⟨[], [], 1, 1⟩ ⟨480, 1020, 15, 30⟩ 1 0 547 "online" ""
     (by decide) (by decide) (by decide)⟩

/-- The in-place update of `update_or_create` does not change how many
entries match the key. -/
theorem countP_availKey_map_update (t d s idv et : Nat) (mt msg : String)
    (l : List Availability) :
    (l.map (fun x =>
      if x.id == idv then
        { x with endTime := et, meetingType := mt, message := msg }
      else x)).countP (availKey t d s) = l.countP (availKey t d s) := by
  induction l with
  | nil => rfl
  | cons x xs ih =>
    simp only [List.map_cons, List.countP_cons, ih]
    congr 1
    by_cases h : (x.id == idv) = true
    · rw [if_pos h, availKey_update_eq]
    · rw [if_neg h]

/-- One `set` call leaves exactly one entry for its key, provided the
store respected the unique constraint on `(teacher, date, start_time)`
beforehand. -/
theorem countP_availKey_after_set (db : DB) (cfg : SlotConfig) (t d s : Nat)
    (m note : String) (hm : validMeetingType m = true)
    (hlen : note.length ≤ 200) (hfit : s + cfg.meetingDuration < 1440)
    (huniq : db.avails.countP (availKey t d s) ≤ 1) :
    (saveAvailabilitySet db cfg t d s m note).2.avails.countP (availKey t d s) = 1 := by
  have hclean := fullCleanOk_true cfg s note hlen hfit
  cases hfind : db.avails.find? (availKey t d s) with
  | none =>
    have hz : db.avails.countP (availKey t d s) = 0 := by
      rw [List.countP_eq_zero]
      exact List.find?_eq_none.mp hfind
    simp only [saveAvailabilitySet, hm, if_true, hfind, hclean]
    rw [List.countP_append, hz]
    simp [availKey]
  | some a0 =>
    have hpos : 0 < db.avails.countP (availKey t d s) :=
      List.countP_pos_iff.mpr ⟨a0, List.mem_of_find?_eq_some hfind, List.find?_some hfind⟩
    have hone : db.avails.countP (availKey t d s) = 1 := by omega
    simp only [saveAvailabilitySet, hm, if_true, hfind, hclean]
    rw [countP_availKey_map_update]
    exact hone

/-- In a list where exactly one element satisfies the predicate, any two
satisfying elements coincide. -/
theorem eq_of_countP_eq_one {α : Type} {l : List α} {p : α → Bool}
    (h : l.countP p = 1) {x y : α} (hx : x ∈ l) (hpx : p x = true)
    (hy : y ∈ l) (hpy : p y = true) : x = y := by
  rw [List.countP_eq_length_filter] at h
  obtain ⟨z, hz⟩ := List.length_eq_one.mp h
  have hxz : x ∈ l.filter p := List.mem_filter.mpr ⟨hx, hpx⟩
  have hyz : y ∈ l.filter p := List.mem_filter.mpr ⟨hy, hpy⟩
  rw [hz, List.mem_singleton] at hxz hyz
  rw [hxz, hyz]

/-- C9 amended: `set` is an idempotent upsert keyed by
`(teacher, date, start_time)` on every argument tuple that passes the
model validation of `full_clean` (note within 200 characters, meeting
window not crossing midnight): running it twice with identical arguments
leaves exactly one entry for the key (the second call reports an update,
adds no row) and that entry carries the call's mode and note. -/
theorem set_twice_is_upsert (db : DB) (cfg : SlotConfig) (t d s : Nat)
    (m note : String) (hm : validMeetingType m = true)
    (hlen : note.length ≤ 200) (hfit : s + cfg.meetingDuration < 1440)
    (huniq : db.avails.countP (availKey t d s) ≤ 1) :
    (∃ i, (saveAvailabilitySet (saveAvailabilitySet db cfg t d s m note).2
        cfg t d s m note).1 = SaveResult.updated i)
    ∧ (saveAvailabilitySet (saveAvailabilitySet db cfg t d s m note).2
        cfg t d s m note).2.avails.countP (availKey t d s) = 1
    ∧ (saveAvailabilitySet (saveAvailabilitySet db cfg t d s m note).2
        cfg t d s m note).2.avails.length =
          (saveAvailabilitySet db cfg t d s m note).2.avails.length
    ∧ ∀ a ∈ (saveAvailabilitySet (saveAvailabilitySet db cfg t d s m note).2
        cfg t d s m note).2.avails,
        availKey t d s a = true → a.meetingType = m ∧ a.message = note := by
  have hclean := fullCleanOk_true cfg s note hlen hfit
  set db1 : DB := (saveAvailabilitySet db cfg t d s m note).2 with hdb1
  have h1 : db1.avails.countP (availKey t d s) = 1 :=
    countP_availKey_after_set db cfg t d s m note hm hlen hfit huniq
  have hsome : (db1.avails.find? (availKey t d s)).isSome = true := by
    rw [List.find?_isSome]
    exact List.countP_pos_iff.mp (by omega)
  obtain ⟨a0, hfind⟩ := Option.isSome_iff_exists.mp hsome
  have ha0mem := List.mem_of_find?_eq_some hfind
  have ha0key := List.find?_some hfind
  refine ⟨⟨a0.id, ?_⟩, ?_, ?_, ?_⟩
  · simp [saveAvailabilitySet, hm, hfind, hclean]
  · simp only [saveAvailabilitySet, hm, if_true, hfind, hclean]
    rw [countP_availKey_map_update]
    exact h1
  · simp only [saveAvailabilitySet, hm, if_true, hfind, hclean]
    exact List.length_map _ _
  · simp only [saveAvailabilitySet, hm, if_true, hfind, hclean]
    intro a hmem hkey
    obtain ⟨x, hx, hfx⟩ := List.mem_map.mp hmem
    by_cases hid : (x.id == a0.id) = true
    · rw [if_pos hid] at hfx
      rw [← hfx]
      exact ⟨rfl, rfl⟩
    · rw [if_neg hid] at hfx
      rw [← hfx] at hkey
      have hxa0 : x = a0 := eq_of_countP_eq_one h1 hx hkey ha0mem ha0key
      rw [hxa0] at hid
      exact absurd (beq_self_eq_true a0.id) hid

/-- C9 witness: setting 09:00 twice on an empty store. -/
theorem set_twice_is_upsert_witness :
    validMeetingType "online" = true
    ∧ ("n" : String).length ≤ 200
    ∧ 540 + (SlotConfig.meetingDuration ⟨540, 630, 15, 30⟩) < 1440
    ∧ (DB.avails ⟨[], [], 1, 1⟩).countP (availKey 1 0 540) ≤ 1
    ∧ ((∃ i, (saveAvailabilitySet
          (saveAvailabilitySet ⟨[], [], 1, 1⟩ ⟨540, 630, 15, 30⟩ 1 0 540 "online" "n").2
          ⟨540, 630, 15, 30⟩ 1 0 540 "online" "n").1 = SaveResult.updated i)
      ∧ (saveAvailabilitySet
          (saveAvailabilitySet ⟨[], [], 1, 1⟩ ⟨540, 630, 15, 30⟩ 1 0 540 "online" "n").2
          ⟨540, 630, 15, 30⟩ 1 0 540 "online" "n").2.avails.countP (availKey 1 0 540) = 1
      ∧ (saveAvailabilitySet
          (saveAvailabilitySet ⟨[], [], 1, 1⟩ ⟨540, 630, 15, 30⟩ 1 0 540 "online" "n").2
          ⟨540, 630, 15, 30⟩ 1 0 540 "online" "n").2.avails.length =
            (saveAvailabilitySet ⟨[], [], 1, 1⟩ ⟨540, 630, 15, 30⟩ 1 0 540
              "online" "n").2.avails.length
      ∧ ∀ a ∈ (saveAvailabilitySet
          (saveAvailabilitySet ⟨[], [], 1, 1⟩ ⟨540, 630, 15, 30⟩ 1 0 540 "online" "n").2
          ⟨540, 630, 15, 30⟩ 1 0 540 "online" "n").2.avails,
          availKey 1 0 540 a = true → a.meetingType = "online" ∧ a.message = "n") :=
  ⟨by decide, by decide, by decide, by decide,
   set_twice_is_upsert ⟨[], [], 1, 1⟩ ⟨540, 630, 15, 30⟩ 1 0 540 "online" "n"
     (by decide) (by decide) (by decide) (by decide)⟩

/-- C9 counterexample: the argument tuple with start 23:45 (1425) and a
30-minute meeting: `end_time` wraps to 00:15, `full_clean` rejects it on
both calls (the view answers 500), and zero entries — not exactly one —
are stored for the key afterwards. -/
theorem set_twice_wrapping_start_stores_nothing :
    (saveAvailabilitySet ⟨[], [], 1, 1⟩ ⟨540, 1020, 15, 30⟩ 1 0 1425 "online" "").1
        = SaveResult.validationError
    ∧ (saveAvailabilitySet
        (saveAvailabilitySet ⟨[], [], 1, 1⟩ ⟨540, 1020, 15, 30⟩ 1 0 1425 "online" "").2
        ⟨540, 1020, 15, 30⟩ 1 0 1425 "online" "").1 = SaveResult.validationError
    ∧ (saveAvailabilitySet
        (saveAvailabilitySet ⟨[], [], 1, 1⟩ ⟨540, 1020, 15, 30⟩ 1 0 1425 "online" "").2
        ⟨540, 1020, 15, 30⟩ 1 0 1425 "online" "").2.avails.countP
        (availKey 1 0 1425) = 0 := by
  decide

/-- C10 amended: overlap is not a rejection reason for `set` — a start
strictly inside another entry's window is accepted whenever the call
passes the model validation of `full_clean` (note within 200 characters,
window not crossing midnight) — and once the overlapping entry is stored
the projector reports the shared grid position as available and blocked
at the same time: the two flags are independent booleans in the slot
record, not mutually exclusive states. -/
theorem overlap_coexists_open_and_blocked (db : DB) (cfg : SlotConfig)
    (t d s : Nat) (m note : String) (e : Availability)
    (hm : validMeetingType m = true)
    (hlen : note.length ≤ 200) (hfit : s + cfg.meetingDuration < 1440)
    (hids : List.Pairwise (fun a b : Availability => a.id ≠ b.id) db.avails)
    (he : e ∈ db.avails) (het : e.teacher = t) (hed : e.date = d)
    (hlt : e.startTime < s) (hend : s < e.endTime) :
    (∃ i, (saveAvailabilitySet db cfg t d s m note).1 = SaveResult.created i
        ∨ (saveAvailabilitySet db cfg t d s m note).1 = SaveResult.updated i)
    ∧ ∀ sl ∈ generateTimeSlots cfg
        (availsFor (saveAvailabilitySet db cfg t d s m note).2 t d),
        sl.startTime = s → sl.isAvailable = true ∧ sl.isBlocked = true := by
  have hclean := fullCleanOk_true cfg s note hlen hfit
  obtain ⟨hok, a, hamem, hakey⟩ := set_key_entry_exists db cfg t d s m note hm hlen hfit
  refine ⟨hok, ?_⟩
  have hsurvives : e ∈ (saveAvailabilitySet db cfg t d s m note).2.avails := by
    cases hfind : db.avails.find? (availKey t d s) with
    | none =>
      simp only [saveAvailabilitySet, hm, if_true, hfind, hclean]
      exact List.mem_append.mpr (Or.inl he)
    | some a0 =>
      have ha0key := List.find?_some hfind
      have ha0start : a0.startTime = s := by
        have := ha0key
        simp only [availKey, Bool.and_eq_true, beq_iff_eq] at this
        exact this.2
      have hne : e ≠ a0 := by
        intro heq
        rw [heq, ha0start] at hlt
        exact Nat.lt_irrefl s hlt
      have hsym : Symmetric (fun a b : Availability => a.id ≠ b.id) := by
        intro x y h heq
        exact h heq.symm
      have hneid : e.id ≠ a0.id :=
        List.Pairwise.forall hsym hids he (List.mem_of_find?_eq_some hfind) hne
      have hbeq : (e.id == a0.id) = false := by
        rw [Bool.eq_false_iff]
        intro hb
        exact hneid (beq_iff_eq.mp hb)
      simp only [saveAvailabilitySet, hm, if_true, hfind, hclean]
      refine List.mem_map.mpr ⟨e, he, ?_⟩
      rw [if_neg (by rw [hbeq]; exact Bool.false_ne_true)]
  have hefilter : e ∈ availsFor (saveAvailabilitySet db cfg t d s m note).2 t d := by
    refine List.mem_filter.mpr ⟨hsurvives, ?_⟩
    rw [Bool.and_eq_true, beq_iff_eq, beq_iff_eq]
    exact ⟨het, hed⟩
  have hakey2 := hakey
  simp only [availKey, Bool.and_eq_true, beq_iff_eq] at hakey2
  have hafilter : a ∈ availsFor (saveAvailabilitySet db cfg t d s m note).2 t d := by
    refine List.mem_filter.mpr ⟨hamem, ?_⟩
    rw [Bool.and_eq_true, beq_iff_eq, beq_iff_eq]
    exact ⟨hakey2.1.1, hakey2.1.2⟩
  intro sl hmem hs
  have hsl := mem_slotsFrom_eq_slotAt cfg _ _ _ sl hmem
  rw [hs] at hsl
  subst hsl
  constructor
  · show ((availsFor _ t d).find? (fun x => x.startTime == s)).isSome = true
    rw [List.find?_isSome]
    exact ⟨a, hafilter, by rw [beq_iff_eq]; exact hakey2.2⟩
  · show ((availsFor _ t d).any fun x => x.startTime < s && s < x.endTime) = true
    rw [List.any_eq_true]
    exact ⟨e, hefilter, by
      rw [Bool.and_eq_true, decide_eq_true_eq, decide_eq_true_eq]
      exact ⟨hlt, hend⟩⟩

/-- C10 witness: entries at 09:00 and 09:15 (30-minute meetings) coexist
and the 09:15 grid position is available and blocked at once. -/
theorem overlap_coexists_open_and_blocked_witness :
    validMeetingType "online" = true
    ∧ ("" : String).length ≤ 200
    ∧ 555 + (SlotConfig.meetingDuration ⟨540, 630, 15, 30⟩) < 1440
    ∧ (⟨1, 1, 0, 540, 570, "online", "x"⟩ : Availability) ∈
        [(⟨1, 1, 0, 540, 570, "online", "x"⟩ : Availability)]
    ∧ ((∃ i, (saveAvailabilitySet ⟨[⟨1, 1, 0, 540, 570, "online", "x"⟩], [], 2, 1⟩
            ⟨540, 630, 15, 30⟩ 1 0 555 "online" "").1 = SaveResult.created i
        ∨ (saveAvailabilitySet ⟨[⟨1, 1, 0, 540, 570, "online", "x"⟩], [], 2, 1⟩
            ⟨540, 630, 15, 30⟩ 1 0 555 "online" "").1 = SaveResult.updated i)
      ∧ ∀ sl ∈ generateTimeSlots ⟨540, 630, 15, 30⟩
          (availsFor (saveAvailabilitySet ⟨[⟨1, 1, 0, 540, 570, "online", "x"⟩], [], 2, 1⟩
            ⟨540, 630, 15, 30⟩ 1 0 555 "online" "").2 1 0),
          sl.startTime = 555 → sl.isAvailable = true ∧ sl.isBlocked = true) :=
  ⟨by decide, by decide, by decide, by decide,
   overlap_coexists_open_and_blocked ⟨[⟨1, 1, 0, 540, 570, "online", "x"⟩], [], 2, 1⟩
     ⟨540, 630, 15, 30⟩ 1 0 555 "online" "" ⟨1, 1, 0, 540, 570, "online", "x"⟩
     (by decide) (by decide) (by decide) (by simp) (by simp) rfl rfl
     (by decide) (by decide)⟩

/-- C10 counterexample: an entry 23:20-23:50 (itself creatable by `set`)
strictly contains the start 23:45, yet `set` at 23:45 is rejected: its
computed end wraps to 00:15, `full_clean` raises, the view answers 500
and the store is unchanged — so `set` does sometimes reject a start
strictly inside another entry's window. -/
theorem contained_start_rejected_when_window_wraps :
    (saveAvailabilitySet ⟨[], [], 1, 1⟩ ⟨540, 1020, 15, 30⟩ 1 0 1400 "online" "").2.avails
        = [⟨1, 1, 0, 1400, 1430, "online", ""⟩]
    ∧ ((1400 : Nat) < 1425 ∧ (1425 : Nat) < 1430)
    ∧ (saveAvailabilitySet ⟨[⟨1, 1, 0, 1400, 1430, "online", ""⟩], [], 2, 1⟩
        ⟨540, 1020, 15, 30⟩ 1 0 1425 "online" "").1 = SaveResult.validationError
    ∧ (saveAvailabilitySet ⟨[⟨1, 1, 0, 1400, 1430, "online", ""⟩], [], 2, 1⟩
        ⟨540, 1020, 15, 30⟩ 1 0 1425 "online" "").2
        = ⟨[⟨1, 1, 0, 1400, 1430, "online", ""⟩], [], 2, 1⟩ := by
  decide

end Advising
